import Mathlib

/-!
Verification of the Uniswap v3 pools ATQ module (src/main.mts).

The module resolves a per-network subgraph endpoint, repeatedly fetches
pages of pool records, validates and transforms them into contract tags,
and accumulates the tags until a short page ends pagination.  The Lean
definitions below are a shallow embedding of the TypeScript source; the
external fetch transport is modelled as an oracle supplying the response
of each call.
-/

/-- Token data shape from the subgraph (interface PoolToken). -/
structure PoolToken where
  id : String
  name : String
  symbol : String
deriving DecidableEq

/-- Pool record shape from the subgraph (interface Pool).  The timestamp is
an integer unix-seconds value. -/
structure Pool where
  id : String
  createdAtTimestamp : Int
  token0 : PoolToken
  token1 : PoolToken
deriving DecidableEq

/-- Output tag shape (ContractTag from atq-types).  Field names map to the
string keys of the TypeScript record: Contract Address, Public Name Tag,
Project Name, UI/Website Link, Public Note. -/
structure ContractTag where
  contractAddress : String
  publicNameTag : String
  projectName : String
  uiWebsiteLink : String
  publicNote : String
deriving DecidableEq

/-- Scanner equivalent of the regex test in containsHtmlOrMarkdown: the
regex matches somewhere in the text iff some open angle bracket is
followed (strictly later) by a close angle bracket. -/
def containsTagScan : List Char → Bool
  | [] => false
  | c :: rest => if c = '<' then rest.contains '>' else containsTagScan rest

/-- Embedding of containsHtmlOrMarkdown from the source. -/
def containsHtmlOrMarkdown (text : String) : Bool :=
  containsTagScan text.toList

/-- Model of JavaScript String.prototype.trim: remove whitespace from both
ends of the string. -/
def jsTrim (text : String) : String :=
  String.mk (((text.toList.dropWhile Char.isWhitespace).reverse.dropWhile
    Char.isWhitespace).reverse)

/-- Embedding of isEmptyOrInvalid from the source. -/
def isEmptyOrInvalid (text : String) : Bool :=
  jsTrim text == "" || containsHtmlOrMarkdown text

/-- Embedding of truncateString from the source: JavaScript substring of
the first maxLength minus three characters followed by an ellipsis. -/
def truncateString (text : String) (maxLength : Nat) : String :=
  if text.length > maxLength then String.mk (text.toList.take (maxLength - 3)) ++ "..."
  else text

example : containsHtmlOrMarkdown "<script>x</script>" = true := by decide
example : isEmptyOrInvalid "   " = true := by decide
example : isEmptyOrInvalid "USDC" = false := by decide
example : truncateString "ABCDEFGHIJ" 45 = "ABCDEFGHIJ" := by decide

/-- Embedding of the SUBGRAPH_URLS table from the source, keeping the key
order of the object literal; each value is the decentralized endpoint
template containing one [api-key] placeholder. -/
def SUBGRAPH_URLS : List (String × String) := [
  ("1",
   "https://gateway-arbitrum.network.thegraph.com/api/[api-key]/deployments/id/QmZeCuoZeadgHkGwLwMeguyqUKz1WPWQYKcKyMCeQqGhsF"),
  ("137",
   "https://gateway-arbitrum.network.thegraph.com/api/[api-key]/deployments/id/QmdAaDAUDCypVB85eFUkQMkS5DE1HV4s7WJb6iSiygNvAw"),
  ("10",
   "https://gateway-arbitrum.network.thegraph.com/api/[api-key]/deployments/id/QmbTaWMFk4baXnoKQodnyYsFVKFNEiLsgZAe6eu2Sdj8Ef"),
  ("42220",
   "https://gateway-arbitrum.network.thegraph.com/api/[api-key]/deployments/id/QmXfJmxY7C4A4UoWEexvei8XzcSxMegr78rt3Rzz8szkZA"),
  ("8453",
   "https://gateway.thegraph.com/api/[api-key]/subgraphs/id/43Hwfi3dJSoGpyas9VwNoDAv55yjgGrPpNSmbQZArzMG"),
  ("43114",
   "https://gateway.thegraph.com/api/[api-key]/subgraphs/id/GVH9h9KZ9CqheUEL93qMbq7QwgoBu32QXQDPR6bev4Eo"),
  ("42161",
   "https://gateway.thegraph.com/api/[api-key]/subgraphs/id/FbCGRftH4a3yZugY7TnbYgPJVEv2LvMT6oF1fxPe9aJM"),
  ("56",
   "https://gateway.thegraph.com/api/[api-key]/subgraphs/id/F85MNzUGYqgSHSHRGgeVMNsdnW1KtZSVgFULumXRZTw2")]

/-- Keys of the endpoint table, in order (Object.keys(SUBGRAPH_URLS)). -/
def supportedChainIds : List String := SUBGRAPH_URLS.map (·.1)

/-- Join of the supported chain ids (Object.keys(...).join with a comma
and space separator). -/
def joinedChainIds : String := String.intercalate ", " supportedChainIds

/-- Error message built by prepareUrl for a rejected chain id. -/
def unsupportedChainIdMessage (chainId : String) : String :=
  "Unsupported or invalid Chain ID provided: " ++ chainId ++
    ". Only the following values are accepted: " ++ joinedChainIds

/-- Helper for the JavaScript Number() model: a nonempty all-digit chunk. -/
def digitsNonempty (cs : List Char) : Bool :=
  !cs.isEmpty && cs.all Char.isDigit

/-- Helper for the JavaScript Number() model: an optional decimal exponent
part (e or E, optional sign, then at least one digit). -/
def expOk : List Char → Bool
  | [] => true
  | c :: rest =>
    if c = 'e' || c = 'E' then
      match rest with
      | [] => false
      | s :: tl => if s = '+' || s = '-' then digitsNonempty tl else digitsNonempty rest
    else false

/-- Helper for the JavaScript Number() model: an unsigned decimal literal,
digits with an optional fraction part and an optional exponent, requiring
at least one mantissa digit. -/
def decimalBody (cs : List Char) : Bool :=
  let ip := cs.takeWhile Char.isDigit
  let r1 := cs.dropWhile Char.isDigit
  match r1 with
  | [] => !ip.isEmpty
  | c :: rest =>
    if c = '.' then
      let fp := rest.takeWhile Char.isDigit
      let r2 := rest.dropWhile Char.isDigit
      (!ip.isEmpty || !fp.isEmpty) && expOk r2
    else !ip.isEmpty && expOk r1

/-- Helper for a hexadecimal digit in either case. -/
def isHexDigitChar (c : Char) : Bool :=
  c.isDigit || ('a' ≤ c && c ≤ 'f') || ('A' ≤ c && c ≤ 'F')

/-- Helper for the JavaScript Number() model: an unsigned numeric literal,
which is Infinity, a 0x/0o/0b radix literal, or a decimal literal. -/
def jsUnsignedNumeric (cs : List Char) : Bool :=
  if cs = "Infinity".toList then true
  else
    match cs with
    | '0' :: c :: rest =>
      if c = 'x' || c = 'X' then !rest.isEmpty && rest.all isHexDigitChar
      else if c = 'o' || c = 'O' then
        !rest.isEmpty && rest.all (fun d => '0' ≤ d && d ≤ '7')
      else if c = 'b' || c = 'B' then
        !rest.isEmpty && rest.all (fun d => d = '0' || d = '1')
      else decimalBody cs
    | _ => decimalBody cs

/-- Model of the JavaScript test isNaN(Number(s)) being false: the string,
after trimming, is empty (Number gives 0) or is a signed decimal or
Infinity, or an unsigned radix literal. -/
def jsNumericString (s : String) : Bool :=
  match (jsTrim s).toList with
  | [] => true
  | c :: rest =>
    if c = '+' || c = '-' then rest = "Infinity".toList || decimalBody rest
    else jsUnsignedNumeric (c :: rest)

example : jsNumericString "1" = true := by decide
example : jsNumericString "42220" = true := by decide
example : jsNumericString "999999" = true := by decide
example : jsNumericString "abc" = false := by decide
example : jsNumericString " 12.5e3 " = true := by decide
example : jsNumericString "0x1A" = true := by decide
example : jsNumericString "" = true := by decide

/-- Characters that encodeURIComponent leaves unescaped: ASCII letters and
digits and the marks minus, underscore, dot, bang, tilde, star, quote and
parentheses (the quote written by code point). -/
def isUnreservedURIChar (c : Char) : Bool :=
  c.isAlpha || c.isDigit || c = '-' || c = '_' || c = '.' || c = '!' ||
    c = '~' || c = '*' || c = Char.ofNat 39 || c = '(' || c = ')'

/-- Uppercase hexadecimal digit of a value below sixteen. -/
def hexDigitUpper : Nat → Char
  | 0 => '0' | 1 => '1' | 2 => '2' | 3 => '3' | 4 => '4' | 5 => '5'
  | 6 => '6' | 7 => '7' | 8 => '8' | 9 => '9' | 10 => 'A' | 11 => 'B'
  | 12 => 'C' | 13 => 'D' | 14 => 'E' | _ => 'F'

/-- UTF-8 bytes of a unicode code point. -/
def utf8Bytes (n : Nat) : List Nat :=
  if n < 128 then [n]
  else if n < 2048 then [192 + n / 64, 128 + n % 64]
  else if n < 65536 then [224 + n / 4096, 128 + n / 64 % 64, 128 + n % 64]
  else [240 + n / 262144, 128 + n / 4096 % 64, 128 + n / 64 % 64, 128 + n % 64]

/-- Percent-escape of one byte as used by encodeURIComponent. -/
def percentEncodeByte (b : Nat) : List Char :=
  ['%', hexDigitUpper (b / 16), hexDigitUpper (b % 16)]

/-- Model of the JavaScript builtin encodeURIComponent: unreserved
characters pass through, every other character is replaced by the
percent-escapes of its UTF-8 bytes. -/
def encodeURIComponent (s : String) : String :=
  String.mk (s.toList.flatMap fun c =>
    if isUnreservedURIChar c then [c]
    else (utf8Bytes c.toNat).flatMap percentEncodeByte)

example : encodeURIComponent "a b" = "a%20b" := by decide
example : encodeURIComponent "k/ey" = "k%2Fey" := by decide

/-- Model of the JavaScript String.prototype.replace with a plain string
pattern: only the first occurrence of the pattern is replaced. -/
def listReplaceFirst : List Char → List Char → List Char → List Char
  | [], _, _ => []
  | c :: rest, needle, repl =>
    if needle.isPrefixOf (c :: rest) then repl ++ (c :: rest).drop needle.length
    else c :: listReplaceFirst rest needle repl

/-- String wrapper of listReplaceFirst. -/
def replaceFirstStr (hay needle repl : String) : String :=
  String.mk (listReplaceFirst hay.toList needle.toList repl.toList)

example : replaceFirstStr "ab[k]cd[k]" "[k]" "X" = "abXcd[k]" := by decide

/-- Embedding of prepareUrl from the source: look the chain id up in the
table, reject a missing entry or a non-numeric id with a message listing
every supported id, otherwise substitute the URL-escaped credential for
the placeholder.  A thrown error is modelled as the error branch. -/
def prepareUrl (chainId apiKey : String) : Except String String :=
  match SUBGRAPH_URLS.lookup chainId with
  | none => Except.error (unsupportedChainIdMessage chainId)
  | some url =>
    if jsNumericString chainId then
      Except.ok (replaceFirstStr url "[api-key]" (encodeURIComponent apiKey))
    else Except.error (unsupportedChainIdMessage chainId)

/-- Payload shape of a GraphQL response (interface GraphQLData); the inner
Option models a runtime response whose pools field is missing. -/
structure GraphQLData where
  pools : Option (List Pool)
deriving DecidableEq

/-- Response body shape (interface GraphQLResponse): optional data and an
optional list of error messages. -/
structure GraphQLResponse where
  responseData : Option GraphQLData
  errors : Option (List String)
deriving DecidableEq

/-- Transport-level result of one fetch call: the HTTP ok flag, status and
parsed JSON body. -/
structure HttpResponse where
  ok : Bool
  status : Nat
  body : GraphQLResponse
deriving DecidableEq

/-- Value of a thrown JavaScript Error as the catch block can observe it:
its message property and its string interpolation form (for a genuine
Error object the latter is the word Error, a colon and the message). -/
structure JsErrorValue where
  message : String
  stringForm : String
deriving DecidableEq

/-- A genuine Error object built by new Error(msg). -/
def mkJsError (msg : String) : JsErrorValue :=
  { message := msg, stringForm := "Error: " ++ msg }

/-- A thrown value as classified by isError from the source: either an
Error-shaped object carrying a string message, or anything else. -/
inductive Thrown where
  | err (e : JsErrorValue)
  | nonError
deriving DecidableEq

/-- One log event: a console.error line, or the single console.log call
reporting the rejected names of a page. -/
inductive LogEvent where
  | errorLine (s : String)
  | rejectedReport (entries : List String)
deriving DecidableEq

/-- Embedding of fetchData from the source, applied to the transport
response of the call: a non-ok status, a present errors list (each of its
messages logged first) and a missing data or pools field each throw, and
otherwise the pool list is returned.  The first component is the result,
the second the console output of the call. -/
def fetchData (resp : HttpResponse) : Except JsErrorValue (List Pool) × List LogEvent :=
  if resp.ok = false then
    (Except.error (mkJsError ("HTTP error: " ++ toString resp.status)), [])
  else
    match resp.body.errors with
    | some msgs =>
      (Except.error (mkJsError "GraphQL errors occurred: see logs for details."),
       msgs.map fun m => LogEvent.errorLine ("GraphQL error: " ++ m))
    | none =>
      match resp.body.responseData with
      | none => (Except.error (mkJsError "No pools data found."), [])
      | some gd =>
        match gd.pools with
        | none => (Except.error (mkJsError "No pools data found."), [])
        | some pools => (Except.ok pools, [])

/-- Behaviour of the transport on one call: either fetch resolves with a
response that fetchData then examines, or fetch itself rejects with some
thrown value (which need not be Error-shaped). -/
inductive FetchStep where
  | response (r : HttpResponse)
  | throwValue (t : Thrown)
deriving DecidableEq

/-- Outcome and console output of one fetchData invocation given the
behaviour of the transport on that call. -/
def fetchStep : FetchStep → Except Thrown (List Pool) × List LogEvent
  | FetchStep.response r =>
    match fetchData r with
    | (Except.error e, logs) => (Except.error (Thrown.err e), logs)
    | (Except.ok pools, logs) => (Except.ok pools, logs)
  | FetchStep.throwValue t => (Except.error t, [])

/-- Validity test of the first token of a pool, as grouped in the source. -/
def token0Invalid (pool : Pool) : Bool :=
  isEmptyOrInvalid pool.token0.name || isEmptyOrInvalid pool.token0.symbol

/-- Validity test of the second token of a pool, as grouped in the source. -/
def token1Invalid (pool : Pool) : Bool :=
  isEmptyOrInvalid pool.token1.name || isEmptyOrInvalid pool.token1.symbol

/-- Log entry pushed for a pool whose first token is invalid. -/
def rejectedEntryToken0 (pool : Pool) : String :=
  "Contract: " ++ pool.id ++
    " rejected due to invalid token symbol/name - Token0: " ++
    pool.token0.name ++ ", Symbol: " ++ pool.token0.symbol

/-- Log entry pushed for a pool whose second token is invalid. -/
def rejectedEntryToken1 (pool : Pool) : String :=
  "Contract: " ++ pool.id ++
    " rejected due to invalid token symbol/name - Token1: " ++
    pool.token1.name ++ ", Symbol: " ++ pool.token1.symbol

/-- Entries accumulated in rejectedNames by the forEach of the source: a
rejected pool contributes one entry per invalid token. -/
def rejectedEntries (pools : List Pool) : List String :=
  pools.flatMap fun pool =>
    if token0Invalid pool || token1Invalid pool then
      (if token0Invalid pool then [rejectedEntryToken0 pool] else []) ++
        (if token1Invalid pool then [rejectedEntryToken1 pool] else [])
    else []

/-- Output tag built for one accepted pool, following the object literal
of the source (the symbols segment truncated at forty-five characters and
the Pool suffix appended afterwards). -/
def poolToTag (chainId : String) (pool : Pool) : ContractTag :=
  { contractAddress := "eip155:" ++ chainId ++ ":" ++ pool.id
    publicNameTag :=
      truncateString (pool.token0.symbol ++ "/" ++ pool.token1.symbol) 45 ++ " Pool"
    projectName := "Uniswap v3"
    uiWebsiteLink := "https://uniswap.org"
    publicNote := "The liquidity pool contract on Uniswap v3 for the " ++
      pool.token0.name ++ " (" ++ pool.token0.symbol ++ ") / " ++
      pool.token1.name ++ " (" ++ pool.token1.symbol ++ ") pair." }

/-- Embedding of transformPoolsToTags from the source: pools whose token
fields pass the validator, in input order, each mapped to its tag. -/
def transformPoolsToTags (chainId : String) (pools : List Pool) : List ContractTag :=
  (pools.filter fun pool => !(token0Invalid pool || token1Invalid pool)).map
    (poolToTag chainId)

/-- Console output of transformPoolsToTags: one console.log call carrying
all rejected entries of the page, emitted only when some pool was
rejected. -/
def transformPoolsLogs (pools : List Pool) : List LogEvent :=
  if (rejectedEntries pools).length > 0 then
    [LogEvent.rejectedReport (rejectedEntries pools)]
  else []

/-- Cursor update of the driver: parseInt of the toString of the last
createdAtTimestamp, which is the identity on integer timestamps; the
empty case never arises because the update is guarded by a page length of
exactly one thousand. -/
def lastCreatedAt (pools : List Pool) : Int :=
  match pools.getLast? with
  | some p => p.createdAtTimestamp
  | none => 0

/-- Result of the pagination loop: the tag list of a normal exit, or the
message of the propagated error; each carries the list of cursor values
passed to fetch, in call order.  fuelOut marks exhaustion of the fuel
bound used to embed the while loop. -/
inductive LoopResult where
  | done (tags : List ContractTag) (cursors : List Int)
  | failed (msg : String) (cursors : List Int)
  | fuelOut (cursors : List Int)
deriving DecidableEq

/-- Loop result together with the console output of the run. -/
structure LoopOut where
  result : LoopResult
  logs : List LogEvent
deriving DecidableEq

/-- Record the cursor of the current call in front of the trace of the
remaining calls. -/
def prependCursor (ts : Int) : LoopResult → LoopResult
  | LoopResult.done tags cs => LoopResult.done tags (ts :: cs)
  | LoopResult.failed m cs => LoopResult.failed m (ts :: cs)
  | LoopResult.fuelOut cs => LoopResult.fuelOut (ts :: cs)

/-- Message of the error rethrown by the catch block of returnTags. -/
def wrapMessage : Thrown → String
  | Thrown.err e => "Failed fetching data: " ++ e.stringForm
  | Thrown.nonError => "An unknown error occurred during fetch operation."

/-- Console line emitted by the catch block before rethrowing. -/
def catchLog : Thrown → LogEvent
  | Thrown.err e => LogEvent.errorLine ("An error occurred: " ++ e.message)
  | Thrown.nonError => LogEvent.errorLine "An unknown error occurred."

/-- Embedding of the while loop of returnTags.  The oracle gives the
transport behaviour of each call (by call index and cursor); fuel bounds
the number of iterations.  Each iteration fetches, appends the transformed
page, and continues exactly when the page has one thousand records, with
the cursor advanced to the last created-at timestamp. -/
def returnTagsLoop (oracle : Nat → Int → FetchStep) (chainId : String) :
    Nat → Nat → Int → List ContractTag → LoopOut
  | 0, _, _, _ => ⟨LoopResult.fuelOut [], []⟩
  | fuel + 1, callIdx, lastTimestamp, allTags =>
    match fetchStep (oracle callIdx lastTimestamp) with
    | (Except.error t, flogs) =>
      ⟨LoopResult.failed (wrapMessage t) [lastTimestamp], flogs ++ [catchLog t]⟩
    | (Except.ok pools, flogs) =>
      let newTags := allTags ++ transformPoolsToTags chainId pools
      if pools.length = 1000 then
        let rest := returnTagsLoop oracle chainId fuel (callIdx + 1)
          (lastCreatedAt pools) newTags
        ⟨prependCursor lastTimestamp rest.result,
         flogs ++ transformPoolsLogs pools ++ rest.logs⟩
      else ⟨LoopResult.done newTags [lastTimestamp], flogs ++ transformPoolsLogs pools⟩

/-- Observable outcome of one whole returnTags call. -/
inductive RunResult where
  | ok (tags : List ContractTag)
  | thrown (message : String)
  | fuelOut
deriving DecidableEq

/-- Observable output of one whole returnTags call: outcome, cursor values
passed to fetch, and console output. -/
structure RunOutput where
  result : RunResult
  cursors : List Int
  logs : List LogEvent
deriving DecidableEq

/-- Embedding of returnTags: resolve the URL first (an unsupported chain
id throws before any fetch), then run the pagination loop from cursor
zero with an empty accumulator. -/
def returnTags (chainId apiKey : String) (oracle : Nat → Int → FetchStep)
    (fuel : Nat) : RunOutput :=
  match prepareUrl chainId apiKey with
  | Except.error msg => ⟨RunResult.thrown msg, [], []⟩
  | Except.ok _url =>
    let out := returnTagsLoop oracle chainId fuel 0 0 []
    match out.result with
    | LoopResult.done tags cs => ⟨RunResult.ok tags, cs, out.logs⟩
    | LoopResult.failed msg cs => ⟨RunResult.thrown msg, cs, out.logs⟩
    | LoopResult.fuelOut cs => ⟨RunResult.fuelOut, cs, out.logs⟩

/-- Pool of the worked transformer example of the specification. -/
def specPool : Pool :=
  ⟨"0xabc", 0, ⟨"t0", "USD Coin", "USDC"⟩, ⟨"t1", "Wrapped Ether", "WETH"⟩⟩

/-- Substring relation on strings, stated on their character lists. -/
def strInfix (needle hay : String) : Prop := needle.toList <:+: hay.toList

instance (n h : String) : Decidable (strInfix n h) := by
  unfold strInfix; infer_instance

/-- Substring witness from an explicit decomposition of the haystack. -/
theorem strInfix_of_eq_append {needle hay pre post : String}
    (h : hay = pre ++ needle ++ post) : strInfix needle hay := by
  refine ⟨pre.toList, post.toList, ?_⟩
  rw [h]
  simp [String.data_append]

/-- Characters of a substring occur in the haystack. -/
theorem strInfix_mem {needle hay : String} (h : strInfix needle hay)
    {c : Char} (hc : c ∈ needle.toList) : c ∈ hay.toList :=
  h.subset hc

/-- Scanner form of the markup test: the scan succeeds exactly when some
open angle bracket has a close angle bracket somewhere after it. -/
theorem containsTagScan_iff (l : List Char) :
    containsTagScan l = true ↔ ∃ a b, l = a ++ '<' :: b ∧ '>' ∈ b := by
  induction l with
  | nil => simp [containsTagScan]
  | cons c rest ih =>
    by_cases hc : c = '<'
    · subst hc
      simp only [containsTagScan, if_pos rfl]
      constructor
      · intro h
        exact ⟨[], rest, rfl, by simpa using h⟩
      · rintro ⟨a, b, hab, hb⟩
        cases a with
        | nil =>
          simp only [List.nil_append, List.cons.injEq] at hab
          simpa [hab.2] using hb
        | cons x a2 =>
          simp only [List.cons_append, List.cons.injEq] at hab
          have : '>' ∈ rest := by
            rw [hab.2]
            exact List.mem_append_right _ (List.mem_cons_of_mem _ hb)
          simpa using this
    · rw [show containsTagScan (c :: rest) = containsTagScan rest by
        simp [containsTagScan, hc], ih]
      constructor
      · rintro ⟨a, b, hab, hb⟩
        exact ⟨c :: a, b, by rw [hab, List.cons_append], hb⟩
      · rintro ⟨a, b, hab, hb⟩
        cases a with
        | nil =>
          exfalso
          simp only [List.nil_append, List.cons.injEq] at hab
          exact hc hab.1
        | cons x a2 =>
          simp only [List.cons_append, List.cons.injEq] at hab
          exact ⟨a2, b, hab.2, hb⟩

/-- First-occurrence split of a list at a member. -/
theorem exists_first_split {α : Type} [DecidableEq α] {a : α} {l : List α}
    (h : a ∈ l) : ∃ s t, l = s ++ a :: t ∧ a ∉ s := by
  induction l with
  | nil => cases h
  | cons c rest ih =>
    by_cases hc : c = a
    · exact ⟨[], rest, by rw [hc, List.nil_append], by simp⟩
    · have hmem : a ∈ rest := by
        rcases List.mem_cons.mp h with h1 | h1
        · exact absurd h1.symm hc
        · exact h1
      obtain ⟨s, t, hst, hns⟩ := ih hmem
      refine ⟨c :: s, t, by rw [hst, List.cons_append], ?_⟩
      simp only [List.mem_cons, not_or]
      exact ⟨fun h2 => hc h2.symm, hns⟩

/-- Regex form of the markup test: the scan succeeds exactly when the text
has a substring consisting of an open bracket, close-bracket-free middle
characters, and a close bracket. -/
theorem containsTagScan_regex_iff (l : List Char) :
    containsTagScan l = true ↔
      ∃ a mid b, l = a ++ '<' :: (mid ++ '>' :: b) ∧ '>' ∉ mid := by
  rw [containsTagScan_iff]
  constructor
  · rintro ⟨a, b, hab, hb⟩
    obtain ⟨s, t, hst, hns⟩ := exists_first_split hb
    exact ⟨a, s, t, by rw [hab, hst], hns⟩
  · rintro ⟨a, mid, b, hab, _⟩
    exact ⟨a, mid ++ '>' :: b, hab, by simp⟩

/-- Claim C7: a string is judged invalid exactly when it is empty after
trimming whitespace or contains a substring matching the angle bracket
markup pattern; the empty string, a blank string and a script tag are
invalid while USDC and Wrapped Ether are valid. -/
theorem validator_invalid_iff :
    (∀ s : String, isEmptyOrInvalid s = true ↔
      (jsTrim s = "" ∨
        ∃ a mid b, s.toList = a ++ '<' :: (mid ++ '>' :: b) ∧ '>' ∉ mid)) ∧
    isEmptyOrInvalid "" = true ∧ isEmptyOrInvalid "   " = true ∧
    isEmptyOrInvalid "<script>x</script>" = true ∧
    isEmptyOrInvalid "USDC" = false ∧ isEmptyOrInvalid "Wrapped Ether" = false := by
  refine ⟨fun s => ?_, by decide, by decide, by decide, by decide, by decide⟩
  unfold isEmptyOrInvalid containsHtmlOrMarkdown
  rw [Bool.or_eq_true, beq_iff_eq, containsTagScan_regex_iff]

/-- Claim C4: a string longer than forty-five characters truncates to its
first forty-two characters plus an ellipsis, forty-five characters in all;
shorter strings pass unchanged; in the public name tag only the symbols
segment is truncated, the Pool suffix being appended afterwards. -/
theorem truncator_bound :
    ∀ s : String,
      (s.length > 45 →
        truncateString s 45 = String.mk (s.toList.take 42) ++ "..." ∧
        (truncateString s 45).length = 45) ∧
      (s.length ≤ 45 → truncateString s 45 = s) ∧
      (∀ chainId pool, (poolToTag chainId pool).publicNameTag =
        truncateString (pool.token0.symbol ++ "/" ++ pool.token1.symbol) 45 ++
          " Pool") := by
  intro s
  refine ⟨fun h => ?_, fun h => ?_, fun _ _ => rfl⟩
  · have he : truncateString s 45 = String.mk (s.toList.take 42) ++ "..." := by
      unfold truncateString
      rw [if_pos h]
    refine ⟨he, ?_⟩
    rw [he, String.length_append]
    have h1 : (String.mk (s.toList.take 42)).length = (s.toList.take 42).length := rfl
    have h2 : s.toList.length = s.length := rfl
    rw [h1, List.length_take, Nat.min_eq_left (by omega)]
    rfl
  · unfold truncateString
    rw [if_neg (by omega)]

/-- Claim C3: the transformer keeps exactly the records whose four token
name and symbol fields all pass the validator, in input order, mapping
each to its tag; rejection is local and the function is total. -/
theorem transform_rejection_rule :
    ∀ chainId pools, transformPoolsToTags chainId pools =
      (pools.filter fun p =>
        !(isEmptyOrInvalid p.token0.name || isEmptyOrInvalid p.token0.symbol ||
          isEmptyOrInvalid p.token1.name || isEmptyOrInvalid p.token1.symbol)).map
        (poolToTag chainId) := by
  intro chainId pools
  unfold transformPoolsToTags
  congr 1
  apply List.filter_congr
  intro p _
  simp [token0Invalid, token1Invalid, Bool.or_assoc]

/-- Splitting of the close paren and slash literal of the public note. -/
theorem parenSlashSplit : (") / " : String) = ")" ++ " / " := by decide

/-- Splitting of the close paren and pair literal of the public note. -/
theorem parenPairSplit : (") pair." : String) = ")" ++ " pair." := by decide

set_option maxRecDepth 8192 in
/-- Claim C5: every accepted pool yields one tag with the eip155 contract
address, the constant project name and website link, and a public note
naming both tokens with untruncated names and symbols; the worked example
of the specification produces exactly the expected tag. -/
theorem output_tag_schema :
    (∀ chainId pool,
      (poolToTag chainId pool).contractAddress =
        "eip155:" ++ chainId ++ ":" ++ pool.id ∧
      (poolToTag chainId pool).projectName = "Uniswap v3" ∧
      (poolToTag chainId pool).uiWebsiteLink = "https://uniswap.org" ∧
      strInfix (pool.token0.name ++ " (" ++ pool.token0.symbol ++ ")")
        (poolToTag chainId pool).publicNote ∧
      strInfix (pool.token1.name ++ " (" ++ pool.token1.symbol ++ ")")
        (poolToTag chainId pool).publicNote) ∧
    transformPoolsToTags "1" [specPool] = [poolToTag "1" specPool] ∧
    (poolToTag "1" specPool).contractAddress = "eip155:1:0xabc" ∧
    (poolToTag "1" specPool).publicNameTag = "USDC/WETH Pool" ∧
    strInfix "USD Coin (USDC)" (poolToTag "1" specPool).publicNote ∧
    strInfix "Wrapped Ether (WETH)" (poolToTag "1" specPool).publicNote := by
  refine ⟨fun chainId pool => ⟨rfl, rfl, rfl, ?_, ?_⟩,
    by decide, by decide, by decide, by decide, by decide⟩
  · unfold strInfix
    refine ⟨("The liquidity pool contract on Uniswap v3 for the " : String).toList,
      (" / " ++ pool.token1.name ++ " (" ++ pool.token1.symbol ++
        ") pair.").toList, ?_⟩
    show _ ++ _ ++ _ = ((poolToTag chainId pool).publicNote).data
    simp only [poolToTag, String.data_append, String.toList]
    simp [List.append_assoc]
  · unfold strInfix
    refine ⟨("The liquidity pool contract on Uniswap v3 for the " ++
        pool.token0.name ++ " (" ++ pool.token0.symbol ++ ") / ").toList,
      (" pair." : String).toList, ?_⟩
    show _ ++ _ ++ _ = ((poolToTag chainId pool).publicNote).data
    simp only [poolToTag, String.data_append, String.toList]
    simp [List.append_assoc]

set_option maxRecDepth 8192 in
set_option maxHeartbeats 1000000 in
/-- Witness for claim C4: the fifty-character example truncates to the
forty-two first characters plus the ellipsis, forty-five in all, and the
ten-character example is unchanged. -/
theorem truncator_bound_witness :
    truncateString "AAAAAAAAAAAAAAAAAAAAAAAAAAAAAAAAAAAAAAAAAAAAAAAAAA" 45 =
      String.mk
        (("AAAAAAAAAAAAAAAAAAAAAAAAAAAAAAAAAAAAAAAAAAAAAAAAAA" : String).toList.take 42)
        ++ "..." ∧
    (truncateString "AAAAAAAAAAAAAAAAAAAAAAAAAAAAAAAAAAAAAAAAAAAAAAAAAA" 45).length = 45 ∧
    truncateString "ABCDEFGHIJ" 45 = "ABCDEFGHIJ" :=
  ⟨((truncator_bound "AAAAAAAAAAAAAAAAAAAAAAAAAAAAAAAAAAAAAAAAAAAAAAAAAA").1
      (by decide)).1,
   ((truncator_bound "AAAAAAAAAAAAAAAAAAAAAAAAAAAAAAAAAAAAAAAAAAAAAAAAAA").1
      (by decide)).2,
   (truncator_bound "ABCDEFGHIJ").2.1 (by decide)⟩

/-- A hexadecimal digit character in upper case. -/
def isHexUpperChar (c : Char) : Bool :=
  c.isDigit || ('A' ≤ c && c ≤ 'F')

/-- Output characters of the hexadecimal digit function are upper-case hex
digits. -/
theorem hexDigitUpper_hex (n : Nat) : isHexUpperChar (hexDigitUpper n) = true := by
  match n with
  | 0 => rfl
  | 1 => rfl
  | 2 => rfl
  | 3 => rfl
  | 4 => rfl
  | 5 => rfl
  | 6 => rfl
  | 7 => rfl
  | 8 => rfl
  | 9 => rfl
  | 10 => rfl
  | 11 => rfl
  | 12 => rfl
  | 13 => rfl
  | 14 => rfl
  | m + 15 => rfl

/-- Every character of an encodeURIComponent result is an unreserved
character, a percent sign, or an upper-case hex digit. -/
theorem encode_char_mem {s : String} {c : Char}
    (h : c ∈ (encodeURIComponent s).toList) :
    isUnreservedURIChar c = true ∨ c = '%' ∨ isHexUpperChar c = true := by
  unfold encodeURIComponent at h
  rcases List.mem_flatMap.mp h with ⟨a, _, hc⟩
  by_cases hu : isUnreservedURIChar a
  · rw [if_pos hu] at hc
    rcases List.mem_singleton.mp hc with rfl
    exact Or.inl hu
  · rw [if_neg hu] at hc
    rcases List.mem_flatMap.mp hc with ⟨b, _, hcb⟩
    simp only [percentEncodeByte, List.mem_cons, List.not_mem_nil, or_false] at hcb
    rcases hcb with h1 | h1 | h1
    · subst h1; exact Or.inr (Or.inl rfl)
    · subst h1; exact Or.inr (Or.inr (hexDigitUpper_hex _))
    · subst h1; exact Or.inr (Or.inr (hexDigitUpper_hex _))

/-- An open bracket never survives URL escaping. -/
theorem bracket_not_mem_encode (s : String) :
    '[' ∉ (encodeURIComponent s).toList := by
  intro h
  rcases encode_char_mem h with h1 | h1 | h1
  · exact absurd h1 (by decide)
  · exact absurd h1 (by decide)
  · exact absurd h1 (by decide)

/-- Replacement of the first occurrence of a pattern that does occur:
the haystack splits at that occurrence and the result carries the
replacement between the same two parts. -/
theorem listReplaceFirst_of_infix {needle : List Char}
    (repl : List Char) :
    ∀ {hay : List Char}, needle <:+: hay → needle ≠ [] →
      ∃ pre suf, hay = pre ++ needle ++ suf ∧
        listReplaceFirst hay needle repl = pre ++ repl ++ suf := by
  intro hay
  induction hay with
  | nil =>
    intro h hne
    obtain ⟨s, t, hst⟩ := h
    rcases List.append_eq_nil.mp hst with ⟨h1, -⟩
    rcases List.append_eq_nil.mp h1 with ⟨-, h2⟩
    exact absurd h2 hne
  | cons c rest ih =>
    intro h hne
    by_cases hp : needle.isPrefixOf (c :: rest)
    · obtain ⟨t, ht⟩ := List.isPrefixOf_iff_prefix.mp hp
      refine ⟨[], t, by rw [List.nil_append, ht], ?_⟩
      rw [listReplaceFirst, if_pos hp, List.nil_append, ← ht, List.drop_left]
    · have h2 : needle <:+: rest := by
        obtain ⟨s, t, hst⟩ := h
        cases s with
        | nil =>
          exfalso
          apply hp
          rw [List.isPrefixOf_iff_prefix]
          exact ⟨t, by rw [← hst, List.nil_append]⟩
        | cons x s2 =>
          rw [List.cons_append, List.cons_append] at hst
          exact ⟨s2, t, ((List.cons.injEq _ _ _ _).mp hst).2⟩
      obtain ⟨pre, suf, h3, h4⟩ := ih h2 hne
      refine ⟨c :: pre, suf, by rw [h3, List.cons_append, List.cons_append], ?_⟩
      rw [listReplaceFirst, if_neg hp, h4, List.cons_append, List.cons_append]

/-- A successful association-list lookup comes from a member pair. -/
theorem lookup_mem_pairs {k v : String} :
    ∀ {l : List (String × String)}, l.lookup k = some v → (k, v) ∈ l := by
  intro l
  induction l with
  | nil => intro h; cases h
  | cons p rest ih =>
    intro h
    obtain ⟨pk, pv⟩ := p
    by_cases hk : k = pk
    · subst hk
      rw [List.lookup, beq_self_eq_true] at h
      rcases Option.some.injEq .. ▸ h with rfl
      exact List.mem_cons_self _ _
    · rw [List.lookup, beq_eq_false_iff_ne.mpr hk] at h
      exact List.mem_cons_of_mem _ (ih h)

set_option maxRecDepth 100000 in
/-- Every endpoint template of the table contains the placeholder, and a
single open bracket in all. -/
theorem table_urls_ok :
    ∀ p ∈ SUBGRAPH_URLS,
      ("[api-key]".toList <:+: p.2.toList) ∧ p.2.toList.count '[' = 1 := by
  decide

set_option maxRecDepth 100000 in
/-- Every supported chain id occurs in the joined id listing. -/
theorem chainIds_in_joined :
    ∀ k ∈ supportedChainIds, strInfix k joinedChainIds := by
  decide

/-- Lists flanking the single placeholder occurrence carry no open
bracket. -/
theorem flanks_no_bracket {pre suf : List Char}
    (h : (pre ++ "[api-key]".toList ++ suf).count '[' = 1) :
    '[' ∉ pre ∧ '[' ∉ suf := by
  rw [List.count_append, List.count_append] at h
  have hn : (("[api-key]".toList).count '[') = 1 := by decide
  rw [hn] at h
  constructor
  · exact List.count_eq_zero.mp (by omega)
  · exact List.count_eq_zero.mp (by omega)

/-- Claim C6: prepareUrl throws exactly when the chain id is absent from
the endpoint table or not numeric, its error message lists every
supported id, a successful result contains neither the placeholder nor an
unescaped credential character, and a throwing call issues no fetch. -/
theorem prepare_url_raises_iff :
    ∀ chainId apiKey : String,
      ((prepareUrl chainId apiKey).isOk = false ↔
        (SUBGRAPH_URLS.lookup chainId = none ∨ jsNumericString chainId = false)) ∧
      (∀ msg, prepareUrl chainId apiKey = Except.error msg →
        ∀ k ∈ supportedChainIds, strInfix k msg) ∧
      (∀ url, prepareUrl chainId apiKey = Except.ok url →
        (¬ strInfix "[api-key]" url) ∧
        ∀ c ∈ (encodeURIComponent apiKey).toList,
          isUnreservedURIChar c = true ∨ c = '%' ∨ isHexUpperChar c = true) ∧
      (∀ msg oracle fuel, prepareUrl chainId apiKey = Except.error msg →
        returnTags chainId apiKey oracle fuel = ⟨RunResult.thrown msg, [], []⟩) := by
  intro chainId apiKey
  have hjoin : strInfix joinedChainIds (unsupportedChainIdMessage chainId) := by
    unfold strInfix
    refine ⟨("Unsupported or invalid Chain ID provided: " ++ chainId ++
      ". Only the following values are accepted: ").toList, [], ?_⟩
    simp [unsupportedChainIdMessage, String.data_append, String.toList,
      List.append_assoc]
  refine ⟨?_, ?_, ?_, ?_⟩
  · unfold prepareUrl
    cases hl : SUBGRAPH_URLS.lookup chainId with
    | none => simp [Except.isOk, Except.toBool]
    | some u =>
      cases hnum : jsNumericString chainId with
      | false => simp [Except.isOk, Except.toBool]
      | true => simp [Except.isOk, Except.toBool]
  · intro msg h k hk
    have hmsg : msg = unsupportedChainIdMessage chainId := by
      unfold prepareUrl at h
      split at h
      · exact (Except.error.injEq _ _ ▸ h).symm
      · split at h
        · cases h
        · exact (Except.error.injEq _ _ ▸ h).symm
    rw [hmsg]
    exact List.IsInfix.trans (chainIds_in_joined k hk) hjoin
  · intro url h
    unfold prepareUrl at h
    split at h
    · cases h
    · rename_i u heq
      split at h
      · have hinj : url =
            replaceFirstStr u "[api-key]" (encodeURIComponent apiKey) :=
          (Except.ok.injEq _ _ ▸ h).symm
        have hmem := lookup_mem_pairs heq
        have htab := table_urls_ok _ hmem
        obtain ⟨pre, suf, hdecomp, hres⟩ :=
          listReplaceFirst_of_infix (encodeURIComponent apiKey).toList htab.1
            (by decide)
        have hurl : url.toList = pre ++ (encodeURIComponent apiKey).toList ++ suf := by
          rw [hinj]
          show listReplaceFirst u.toList ("[api-key]".toList)
            (encodeURIComponent apiKey).toList = _
          exact hres
        have hcount : (pre ++ "[api-key]".toList ++ suf).count '[' = 1 := by
          rw [← hdecomp]; exact htab.2
        have hbr := flanks_no_bracket hcount
        constructor
        · intro hinfix
          have hmem2 : '[' ∈ url.toList := strInfix_mem hinfix (by decide)
          rw [hurl] at hmem2
          rcases List.mem_append.mp hmem2 with h2 | h2
          · rcases List.mem_append.mp h2 with h3 | h3
            · exact hbr.1 h3
            · exact bracket_not_mem_encode apiKey h3
          · exact hbr.2 h2
        · intro c hc
          exact encode_char_mem hc
      · cases h
  · intro msg oracle fuel h
    unfold returnTags
    rw [h]

set_option maxRecDepth 100000 in
/-- Witness for claim C6: on chain id 1 with a credential containing
spaces the resolved URL is free of the placeholder, and on the
unsupported id 999999 the error message lists every supported id. -/
theorem prepare_url_raises_iff_witness :
    (¬ strInfix "[api-key]"
      "https://gateway-arbitrum.network.thegraph.com/api/a%20b%20c/deployments/id/QmZeCuoZeadgHkGwLwMeguyqUKz1WPWQYKcKyMCeQqGhsF") ∧
    (∀ k ∈ supportedChainIds, strInfix k (unsupportedChainIdMessage "999999")) :=
  ⟨((prepare_url_raises_iff "1" "a b c").2.2.1
      "https://gateway-arbitrum.network.thegraph.com/api/a%20b%20c/deployments/id/QmZeCuoZeadgHkGwLwMeguyqUKz1WPWQYKcKyMCeQqGhsF"
      (by rfl)).1,
   fun k hk =>
     (prepare_url_raises_iff "999999" "x").2.1 (unsupportedChainIdMessage "999999")
       (by rfl) k hk⟩

/-- Pool whose two tokens are both invalid: an empty name on token0 and a
markup tag in the name of token1. -/
def poolBothBad : Pool := ⟨"0xbad", 7, ⟨"t0", "", "X"⟩, ⟨"t1", "<b>hi</b>", "Y"⟩⟩

/-- Counterexample to claim C8 as stated: a single rejected record whose
two sides are both invalid produces two log entries rather than exactly
one, and neither entry names both sides. -/
theorem rejection_log_counterexample :
    token0Invalid poolBothBad = true ∧ token1Invalid poolBothBad = true ∧
    rejectedEntries [poolBothBad] =
      [rejectedEntryToken0 poolBothBad, rejectedEntryToken1 poolBothBad] ∧
    (rejectedEntries [poolBothBad]).length = 2 ∧
    ¬ (rejectedEntries [poolBothBad]).length = 1 := by
  refine ⟨by decide, by decide, by decide, by decide, by decide⟩

/-- Claim C8 (amended): a rejected record contributes one log entry per
invalid side, so one entry when a single side is invalid and two when
both are; each entry names its side, the pool id, and that token name and
symbol; the entries of a page are emitted in a single log call, absent
when nothing was rejected. -/
theorem rejection_log_per_side :
    (∀ pools, rejectedEntries pools = pools.flatMap fun p =>
      (if token0Invalid p then [rejectedEntryToken0 p] else []) ++
        (if token1Invalid p then [rejectedEntryToken1 p] else [])) ∧
    (∀ p : Pool, strInfix p.id (rejectedEntryToken0 p) ∧
      strInfix "Token0" (rejectedEntryToken0 p) ∧
      strInfix p.token0.name (rejectedEntryToken0 p) ∧
      strInfix p.token0.symbol (rejectedEntryToken0 p)) ∧
    (∀ p : Pool, strInfix p.id (rejectedEntryToken1 p) ∧
      strInfix "Token1" (rejectedEntryToken1 p) ∧
      strInfix p.token1.name (rejectedEntryToken1 p) ∧
      strInfix p.token1.symbol (rejectedEntryToken1 p)) ∧
    (∀ pools, rejectedEntries pools = [] → transformPoolsLogs pools = []) ∧
    (∀ pools, rejectedEntries pools ≠ [] →
      transformPoolsLogs pools =
        [LogEvent.rejectedReport (rejectedEntries pools)]) := by
  refine ⟨?_, ?_, ?_, ?_, ?_⟩
  · intro pools
    unfold rejectedEntries
    congr 1
    funext p
    by_cases h0 : token0Invalid p <;> by_cases h1 : token1Invalid p <;>
      simp [h0, h1]
  · intro p
    refine ⟨?_, ?_, ?_, ?_⟩
    · unfold strInfix
      refine ⟨("Contract: " : String).toList,
        (" rejected due to invalid token symbol/name - Token0: " ++
          p.token0.name ++ ", Symbol: " ++ p.token0.symbol).toList, ?_⟩
      simp only [rejectedEntryToken0, String.data_append, String.toList]
      simp [List.append_assoc]
    · unfold strInfix
      refine ⟨("Contract: " ++ p.id ++
          " rejected due to invalid token symbol/name - ").toList,
        (": " ++ p.token0.name ++ ", Symbol: " ++ p.token0.symbol).toList, ?_⟩
      simp only [rejectedEntryToken0, String.data_append, String.toList]
      simp [List.append_assoc]
    · unfold strInfix
      refine ⟨("Contract: " ++ p.id ++
          " rejected due to invalid token symbol/name - Token0: ").toList,
        (", Symbol: " ++ p.token0.symbol).toList, ?_⟩
      simp only [rejectedEntryToken0, String.data_append, String.toList]
      simp [List.append_assoc]
    · unfold strInfix
      refine ⟨("Contract: " ++ p.id ++
          " rejected due to invalid token symbol/name - Token0: " ++
          p.token0.name ++ ", Symbol: ").toList, ([] : List Char), ?_⟩
      simp only [rejectedEntryToken0, String.data_append, String.toList]
      simp [List.append_assoc]
  · intro p
    refine ⟨?_, ?_, ?_, ?_⟩
    · unfold strInfix
      refine ⟨("Contract: " : String).toList,
        (" rejected due to invalid token symbol/name - Token1: " ++
          p.token1.name ++ ", Symbol: " ++ p.token1.symbol).toList, ?_⟩
      simp only [rejectedEntryToken1, String.data_append, String.toList]
      simp [List.append_assoc]
    · unfold strInfix
      refine ⟨("Contract: " ++ p.id ++
          " rejected due to invalid token symbol/name - ").toList,
        (": " ++ p.token1.name ++ ", Symbol: " ++ p.token1.symbol).toList, ?_⟩
      simp only [rejectedEntryToken1, String.data_append, String.toList]
      simp [List.append_assoc]
    · unfold strInfix
      refine ⟨("Contract: " ++ p.id ++
          " rejected due to invalid token symbol/name - Token1: ").toList,
        (", Symbol: " ++ p.token1.symbol).toList, ?_⟩
      simp only [rejectedEntryToken1, String.data_append, String.toList]
      simp [List.append_assoc]
    · unfold strInfix
      refine ⟨("Contract: " ++ p.id ++
          " rejected due to invalid token symbol/name - Token1: " ++
          p.token1.name ++ ", Symbol: ").toList, ([] : List Char), ?_⟩
      simp only [rejectedEntryToken1, String.data_append, String.toList]
      simp [List.append_assoc]
  · intro pools h
    simp [transformPoolsLogs, h]
  · intro pools h
    have hpos : 0 < (rejectedEntries pools).length := List.length_pos.mpr h
    simp [transformPoolsLogs, hpos]

/-- Witness for claim C8 at the doubly invalid pool: its two entries are
emitted in one log call. -/
theorem rejection_log_per_side_witness :
    transformPoolsLogs [poolBothBad] =
      [LogEvent.rejectedReport (rejectedEntries [poolBothBad])] :=
  rejection_log_per_side.2.2.2.2 [poolBothBad] (by decide)

/-- Claim C9: the credential influences nothing observable but the
resolved URL, formalised as noninterference: with the transport behaviour
fixed, every observable output of returnTags (outcome, tags, cursor
trace, console output, thrown message) is identical for any two
credentials. -/
theorem credential_noninterference :
    ∀ chainId k1 k2 oracle fuel,
      returnTags chainId k1 oracle fuel = returnTags chainId k2 oracle fuel := by
  intro chainId k1 k2 oracle fuel
  unfold returnTags prepareUrl
  cases SUBGRAPH_URLS.lookup chainId with
  | none => rfl
  | some u =>
    cases h : jsNumericString chainId with
    | false => rfl
    | true => rfl

/-- Claim C10: a fetch failure makes the iteration rethrow a fresh error,
with the wrapped message for an Error-shaped value and the fixed unknown
message otherwise; for a genuine Error the new message differs from the
original one. -/
theorem error_wrapping_top_level :
    ∀ oracle chainId fuel callIdx ts acc t,
      (fetchStep (oracle callIdx ts)).1 = Except.error t →
      (returnTagsLoop oracle chainId (fuel + 1) callIdx ts acc).result =
        LoopResult.failed (wrapMessage t) [ts] ∧
      (∀ e, t = Thrown.err e →
        wrapMessage t = "Failed fetching data: " ++ e.stringForm ∧
        (e.stringForm = "Error: " ++ e.message → wrapMessage t ≠ e.message)) ∧
      (t = Thrown.nonError →
        wrapMessage t = "An unknown error occurred during fetch operation.") := by
  intro oracle chainId fuel callIdx ts acc t h
  refine ⟨?_, ?_, ?_⟩
  · rcases hs : fetchStep (oracle callIdx ts) with ⟨res, logs⟩
    rw [hs] at h
    simp only at h
    subst h
    simp only [returnTagsLoop, hs]
  · intro e he
    subst he
    refine ⟨rfl, fun hsf heq => ?_⟩
    have hlen := congrArg String.length heq
    rw [wrapMessage] at hlen
    rw [String.length_append, hsf, String.length_append] at hlen
    have h22 : ("Failed fetching data: " : String).length = 22 := rfl
    have h7 : ("Error: " : String).length = 7 := rfl
    omega
  · intro he
    subst he
    rfl

/-- Transport that always fails with an HTTP status of five hundred. -/
def oracleHttpFail : Nat → Int → FetchStep := fun _ _ =>
  FetchStep.response ⟨false, 500, ⟨none, none⟩⟩

/-- Transport whose fetch rejects with a value that is not Error-shaped. -/
def oracleNonError : Nat → Int → FetchStep := fun _ _ =>
  FetchStep.throwValue Thrown.nonError

/-- Witness for claim C10: a 500 status yields the wrapped message with
the string form of the original error, which differs from the original
message, and a non-Error throw yields the fixed unknown message. -/
theorem error_wrapping_top_level_witness :
    (returnTagsLoop oracleHttpFail "1" 1 0 0 []).result =
      LoopResult.failed "Failed fetching data: Error: HTTP error: 500" [0] ∧
    wrapMessage (Thrown.err (mkJsError "HTTP error: 500")) ≠ "HTTP error: 500" ∧
    (returnTagsLoop oracleNonError "1" 1 0 0 []).result =
      LoopResult.failed "An unknown error occurred during fetch operation." [0] := by
  have h1 := error_wrapping_top_level oracleHttpFail "1" 0 0 0 []
    (Thrown.err (mkJsError "HTTP error: 500")) (by rfl)
  have h2 := error_wrapping_top_level oracleNonError "1" 0 0 0 []
    Thrown.nonError (by rfl)
  refine ⟨?_, (h1.2.1 _ rfl).2 rfl, ?_⟩
  · rw [h1.1]
    rfl
  · rw [h2.1]
    rfl

/-- One full-page step of the driver at a call index and cursor: the fetch
succeeded with exactly one thousand records and the next cursor is the
last created-at timestamp of that page. -/
def fullPageStep (oracle : Nat → Int → FetchStep) (i : Nat) (c next : Int) : Prop :=
  ∃ pools, (fetchStep (oracle i c)).1 = Except.ok pools ∧
    pools.length = 1000 ∧ next = lastCreatedAt pools

/-- Every consecutive cursor pair of a trace arises from a full-page
step. -/
def traceTransitions (oracle : Nat → Int → FetchStep) (callIdx : Nat)
    (cs : List Int) : Prop :=
  ∀ j, j + 1 < cs.length →
    fullPageStep oracle (callIdx + j) (cs.getD j 0) (cs.getD (j + 1) 0)

/-- Extension of a transition trace by one leading full-page call. -/
theorem trace_extend {oracle : Nat → Int → FetchStep} {callIdx : Nat} {ts : Int}
    {pools : List Pool} {cs2 : List Int}
    (hs1 : (fetchStep (oracle callIdx ts)).1 = Except.ok pools)
    (hlen : pools.length = 1000)
    (hhead : cs2.getD 0 0 = lastCreatedAt pools)
    (htr : traceTransitions oracle (callIdx + 1) cs2) :
    traceTransitions oracle callIdx (ts :: cs2) := by
  intro j hj
  cases j with
  | zero =>
    simp only [Nat.add_zero, List.getD_cons_zero, List.getD_cons_succ]
    exact ⟨pools, hs1, hlen, hhead⟩
  | succ k =>
    have hk : k + 1 < cs2.length := by
      simp only [List.length_cons] at hj
      omega
    have harith : callIdx + (k + 1) = callIdx + 1 + k := by omega
    rw [List.getD_cons_succ, List.getD_cons_succ, harith]
    exact htr k hk

/-- Index arithmetic of the final call of a trace extended in front. -/
theorem last_index_shift {cs2 : List Int} (hne : cs2 ≠ []) (ts : Int)
    (callIdx : Nat) :
    (ts :: cs2).length - 1 = cs2.length ∧
    (ts :: cs2).getD ((ts :: cs2).length - 1) 0 =
      cs2.getD (cs2.length - 1) 0 ∧
    callIdx + ((ts :: cs2).length - 1) = callIdx + 1 + (cs2.length - 1) := by
  have hpos : 0 < cs2.length := List.length_pos.mpr hne
  obtain ⟨m, hm⟩ : ∃ m, cs2.length = m + 1 := ⟨cs2.length - 1, by omega⟩
  refine ⟨by simp, ?_, by simp [List.length_cons]; omega⟩
  simp only [List.length_cons, Nat.add_sub_cancel, hm]
  rw [List.getD_cons_succ]

/-- Characterisation of the terminating runs of the pagination loop: a
done result means the trace is nonempty, starts at the starting cursor,
each call but the last returned a full page whose last timestamp became
the next cursor, and the last call returned a short page; a failed result
means the same about every call but the last, while the last call failed
and its wrapped message is the thrown one. -/
theorem returnTagsLoop_spec (oracle : Nat → Int → FetchStep) (chainId : String) :
    ∀ fuel callIdx ts acc,
      (∀ tags cs,
        (returnTagsLoop oracle chainId fuel callIdx ts acc).result =
          LoopResult.done tags cs →
        cs ≠ [] ∧ cs.getD 0 0 = ts ∧ traceTransitions oracle callIdx cs ∧
        (∃ pools,
          (fetchStep (oracle (callIdx + (cs.length - 1))
              (cs.getD (cs.length - 1) 0))).1 = Except.ok pools ∧
          pools.length ≠ 1000)) ∧
      (∀ msg cs,
        (returnTagsLoop oracle chainId fuel callIdx ts acc).result =
          LoopResult.failed msg cs →
        cs ≠ [] ∧ cs.getD 0 0 = ts ∧ traceTransitions oracle callIdx cs ∧
        (∃ t, (fetchStep (oracle (callIdx + (cs.length - 1))
            (cs.getD (cs.length - 1) 0))).1 = Except.error t ∧
          msg = wrapMessage t)) := by
  intro fuel
  induction fuel with
  | zero =>
    intro callIdx ts acc
    constructor
    · intro tags cs h
      simp [returnTagsLoop] at h
    · intro msg cs h
      simp [returnTagsLoop] at h
  | succ fuel ih =>
    intro callIdx ts acc
    rcases hs : fetchStep (oracle callIdx ts) with ⟨res, logs⟩
    have hs1 : (fetchStep (oracle callIdx ts)).1 = res := by rw [hs]
    cases res with
    | error t =>
      constructor
      · intro tags cs h
        simp [returnTagsLoop, hs] at h
      · intro msg cs h
        simp [returnTagsLoop, hs] at h
        obtain ⟨h1, h2⟩ := h
        subst h2
        refine ⟨by simp, by simp, ?_, ?_⟩
        · intro j hj
          simp only [List.length_cons, List.length_nil] at hj
          omega
        · exact ⟨t, by simpa using hs1, h1.symm⟩
    | ok pools =>
      by_cases hlen : pools.length = 1000
      · have hrec := ih (callIdx + 1) (lastCreatedAt pools)
          (acc ++ transformPoolsToTags chainId pools)
        constructor
        · intro tags cs h
          simp only [returnTagsLoop, hs, if_pos hlen] at h
          rcases hr : (returnTagsLoop oracle chainId fuel (callIdx + 1)
              (lastCreatedAt pools)
              (acc ++ transformPoolsToTags chainId pools)).result with
            ⟨tags2, cs2⟩ | ⟨msg2, cs2⟩ | cs2
          · rw [hr] at h
            simp only [prependCursor] at h
            obtain ⟨ht, hc⟩ := (LoopResult.done.injEq _ _ _ _).mp h
            subst hc
            obtain ⟨hne2, hhead2, htr2, hlast2⟩ := hrec.1 tags2 cs2 hr
            obtain ⟨hL1, hL2, hL3⟩ := last_index_shift hne2 ts callIdx
            refine ⟨by simp, by simp, trace_extend hs1 hlen hhead2 htr2, ?_⟩
            rw [hL2, hL3]
            exact hlast2
          · rw [hr] at h
            simp [prependCursor] at h
          · rw [hr] at h
            simp [prependCursor] at h
        · intro msg cs h
          simp only [returnTagsLoop, hs, if_pos hlen] at h
          rcases hr : (returnTagsLoop oracle chainId fuel (callIdx + 1)
              (lastCreatedAt pools)
              (acc ++ transformPoolsToTags chainId pools)).result with
            ⟨tags2, cs2⟩ | ⟨msg2, cs2⟩ | cs2
          · rw [hr] at h
            simp [prependCursor] at h
          · rw [hr] at h
            simp only [prependCursor] at h
            obtain ⟨hm, hc⟩ := (LoopResult.failed.injEq _ _ _ _).mp h
            subst hc
            subst hm
            obtain ⟨hne2, hhead2, htr2, hlast2⟩ := hrec.2 msg2 cs2 hr
            obtain ⟨hL1, hL2, hL3⟩ := last_index_shift hne2 ts callIdx
            refine ⟨by simp, by simp, trace_extend hs1 hlen hhead2 htr2, ?_⟩
            rw [hL2, hL3]
            exact hlast2
          · rw [hr] at h
            simp [prependCursor] at h
      · constructor
        · intro tags cs h
          simp [returnTagsLoop, hs, if_neg hlen] at h
          obtain ⟨h1, h2⟩ := h
          subst h2
          refine ⟨by simp, by simp, ?_, ?_⟩
          · intro j hj
            simp only [List.length_cons, List.length_nil] at hj
            omega
          · exact ⟨pools, by simpa using hs1, hlen⟩
        · intro msg cs h
          simp [returnTagsLoop, hs, if_neg hlen] at h

/-- Claim C2: a run that ends normally certifies that every issued fetch
succeeded; a run in which some page fetch fails ends as the wrapped error
of that (final) fetch, returning no tag list at all; and a page fetch
fails exactly on a non-ok status, a present error list, or a missing data
or pools field. -/
theorem fetch_failure_atomicity :
    ∀ oracle chainId fuel,
      (∀ tags cs,
        (returnTagsLoop oracle chainId fuel 0 0 []).result =
          LoopResult.done tags cs →
        ∀ j, j < cs.length →
          ∃ pools, (fetchStep (oracle j (cs.getD j 0))).1 = Except.ok pools) ∧
      (∀ msg cs,
        (returnTagsLoop oracle chainId fuel 0 0 []).result =
          LoopResult.failed msg cs →
        (∃ t,
          (fetchStep (oracle (cs.length - 1) (cs.getD (cs.length - 1) 0))).1 =
            Except.error t ∧ msg = wrapMessage t) ∧
        ∀ tags cs2, (returnTagsLoop oracle chainId fuel 0 0 []).result ≠
          LoopResult.done tags cs2) ∧
      (∀ resp : HttpResponse,
        (fetchData resp).1.isOk = false ↔
          (resp.ok = false ∨ resp.body.errors ≠ none ∨
            resp.body.responseData = none ∨
            ∃ gd, resp.body.responseData = some gd ∧ gd.pools = none)) := by
  intro oracle chainId fuel
  refine ⟨?_, ?_, ?_⟩
  · intro tags cs h j hj
    obtain ⟨hne, hhead, htr, hlast⟩ :=
      (returnTagsLoop_spec oracle chainId fuel 0 0 []).1 tags cs h
    by_cases hj2 : j + 1 < cs.length
    · obtain ⟨pools, hok, _, _⟩ := htr j hj2
      exact ⟨pools, by simpa using hok⟩
    · have hj3 : j = cs.length - 1 := by omega
      subst hj3
      obtain ⟨pools, hok, _⟩ := hlast
      exact ⟨pools, by simpa using hok⟩
  · intro msg cs h
    obtain ⟨hne, hhead, htr, t, hok, hmsg⟩ :=
      (returnTagsLoop_spec oracle chainId fuel 0 0 []).2 msg cs h
    refine ⟨⟨t, by simpa using hok, hmsg⟩, ?_⟩
    intro tags cs2 hd
    rw [h] at hd
    exact LoopResult.noConfusion hd
  · intro resp
    unfold fetchData
    cases hok : resp.ok with
    | false => simp [Except.isOk, Except.toBool]
    | true =>
      cases herr : resp.body.errors with
      | some msgs => simp [Except.isOk, Except.toBool]
      | none =>
        cases hd : resp.body.responseData with
        | none => simp [Except.isOk, Except.toBool]
        | some gd =>
          cases hp : gd.pools with
          | none => simp [Except.isOk, Except.toBool, hp]
          | some pools => simp [Except.isOk, Except.toBool, hp]

/-- Token with valid name and symbol for the mocked pages. -/
def pTokenA : PoolToken := ⟨"0xt", "TokenA", "TKA"⟩

/-- Valid pool used to fill the mocked pages. -/
def poolA : Pool := ⟨"0xpoolA", 1, pTokenA, pTokenA⟩

/-- Valid pool closing the first mocked page, created at time five
hundred. -/
def poolB : Pool := ⟨"0xpoolB", 500, pTokenA, pTokenA⟩

/-- First mocked page: exactly one thousand records, the last with
timestamp five hundred. -/
def pageOne : List Pool := List.replicate 999 poolA ++ [poolB]

/-- Second mocked page: three records. -/
def pageTwo : List Pool := [poolA, poolA, poolA]

/-- A successful transport response carrying the given pool list. -/
def okResponse (pools : List Pool) : FetchStep :=
  FetchStep.response ⟨true, 200, ⟨some ⟨some pools⟩, none⟩⟩

/-- Mocked fetcher of the specification example: one thousand records on
the first call, three on the second. -/
def oracleTwoPages : Nat → Int → FetchStep := fun i _ =>
  okResponse (if i = 0 then pageOne else pageTwo)

set_option maxRecDepth 100000 in
/-- The first mocked page transforms to one thousand tags. -/
theorem transform_pageOne_length :
    (transformPoolsToTags "1" pageOne).length = 1000 := by
  have hA : (!(token0Invalid poolA || token1Invalid poolA)) = true := by decide
  have hB : (!(token0Invalid poolB || token1Invalid poolB)) = true := by decide
  unfold transformPoolsToTags pageOne
  rw [List.length_map, List.filter_append, List.filter_replicate]
  simp [hA, hB]
  decide

set_option maxRecDepth 100000 in
/-- The second mocked page transforms to three tags. -/
theorem transform_pageTwo_length :
    (transformPoolsToTags "1" pageTwo).length = 3 := by decide

set_option maxRecDepth 100000 in
/-- Claim C1: after a successful fetch-and-transform step the driver
issues another fetch exactly when the page has one thousand records, with
the next cursor equal to the last created-at timestamp, and a page of any
other length ends pagination with the accumulated tags returned; on the
mocked two-page fetcher the driver makes exactly two calls, the second
with cursor five hundred, and returns one thousand and three tags. -/
theorem pagination_transition_rule :
    (∀ oracle chainId fuel tags cs,
      (returnTagsLoop oracle chainId fuel 0 0 []).result =
        LoopResult.done tags cs →
      cs ≠ [] ∧ cs.getD 0 0 = 0 ∧
      (∀ j, j + 1 < cs.length →
        ∃ pools, (fetchStep (oracle j (cs.getD j 0))).1 = Except.ok pools ∧
          pools.length = 1000 ∧ cs.getD (j + 1) 0 = lastCreatedAt pools) ∧
      (∃ pools,
        (fetchStep (oracle (cs.length - 1) (cs.getD (cs.length - 1) 0))).1 =
          Except.ok pools ∧ pools.length ≠ 1000)) ∧
    (∃ tags, (returnTagsLoop oracleTwoPages "1" 2 0 0 []).result =
        LoopResult.done tags [0, 500] ∧ tags.length = 1003) := by
  constructor
  · intro oracle chainId fuel tags cs h
    obtain ⟨hne, hhead, htr, hlast⟩ :=
      (returnTagsLoop_spec oracle chainId fuel 0 0 []).1 tags cs h
    refine ⟨hne, hhead, ?_, ?_⟩
    · intro j hj
      obtain ⟨pools, hok, hlen, hnext⟩ := htr j hj
      exact ⟨pools, by simpa using hok, hlen, hnext⟩
    · obtain ⟨pools, hok, hlen⟩ := hlast
      exact ⟨pools, by simpa using hok, hlen⟩
  · have ho0 : fetchStep (oracleTwoPages 0 0) = (Except.ok pageOne, []) := rfl
    have ho1 : fetchStep (oracleTwoPages 1 500) = (Except.ok pageTwo, []) := rfl
    have hp1 : pageOne.length = 1000 := by simp [pageOne]
    have hp2 : ¬ pageTwo.length = 1000 := by decide
    have hlast : lastCreatedAt pageOne = 500 := by
      unfold lastCreatedAt pageOne
      rw [List.getLast?_concat]
      rfl
    refine ⟨([] ++ transformPoolsToTags "1" pageOne) ++
      transformPoolsToTags "1" pageTwo, ?_, ?_⟩
    · simp only [returnTagsLoop, ho0, hp1, if_pos, hlast, ho1, if_neg hp2,
        prependCursor]
    · rw [List.length_append, List.length_append, transform_pageOne_length,
        transform_pageTwo_length]
      rfl

/-- Mocked fetcher returning one short page of three records. -/
def oracleOnePage : Nat → Int → FetchStep := fun _ _ => okResponse pageTwo

set_option maxRecDepth 100000 in
/-- Witness for claim C1: on a fetcher whose first page is short the
driver stops after the one call, whose page length is not one
thousand. -/
theorem pagination_transition_rule_witness :
    ∃ pools,
      (fetchStep (oracleOnePage (([0] : List Int).length - 1)
          (([0] : List Int).getD (([0] : List Int).length - 1) 0))).1 =
        Except.ok pools ∧ pools.length ≠ 1000 :=
  (pagination_transition_rule.1 oracleOnePage "1" 1
    ([] ++ transformPoolsToTags "1" pageTwo) [0] (by rfl)).2.2.2

set_option maxRecDepth 100000 in
/-- Witness for claim C2: on a fetcher that fails with a 500 status the
run fails with the wrapped message of that fetch and never produces a
done result. -/
theorem fetch_failure_atomicity_witness :
    (∃ t, (fetchStep (oracleHttpFail (([0] : List Int).length - 1)
        (([0] : List Int).getD (([0] : List Int).length - 1) 0))).1 =
      Except.error t ∧
      "Failed fetching data: Error: HTTP error: 500" = wrapMessage t) ∧
    ∀ tags cs2, (returnTagsLoop oracleHttpFail "1" 1 0 0 []).result ≠
      LoopResult.done tags cs2 :=
  (fetch_failure_atomicity oracleHttpFail "1" 1).2.1
    "Failed fetching data: Error: HTTP error: 500" [0] (by rfl)
